import Mathlib

/-!
Shallow embedding of the SquadCalc core (src/unnamed/part_000) in Lean 4.

Modelling conventions, used consistently below:

* JavaScript strings are modelled as `List Char` (`String.data` of literals);
  `charCodeAt` is `Char.toNat` (inputs here are ASCII, where UTF-16 code units
  and code points agree).
* JavaScript numbers are modelled exactly: the keypad codec and height lookup
  use `ℚ` (their operations are `Math.floor`, `%`, `Math.ceil`, `Math.round`
  and field arithmetic, all exact on rationals), the ballistic solver uses `ℝ`
  (it needs `sqrt`, `atan`, `sin`, `atanh`).  IEEE-754 rounding of doubles is
  not modelled.
* A JavaScript number that may be `NaN` is an `Option`: `none` is `NaN`, and
  the arithmetic on `Option` values propagates `none` the way `NaN` poisons
  JavaScript arithmetic.
* A function that can throw is an `Option`-returning function whose `none`
  result models the thrown exception.
* Ambient mutable state (`globalData`, the `MAPS` table, the heightmap canvas)
  is passed explicitly as read-only environment records.
-/

namespace SquadCalc

/-! ### JavaScript string and number primitives -/

/-- JS `String.prototype.toUpperCase` on one ASCII character. -/
def toUpperChar (c : Char) : Char :=
  if 'a' ≤ c ∧ c ≤ 'z' then Char.ofNat (c.toNat - 32) else c

/-- Value of a decimal digit character. -/
def digitVal (c : Char) : ℕ := c.toNat - 48

/-- Numeric value of a nonempty all-digit string. -/
def natOfDigits (cs : List Char) : ℕ :=
  cs.foldl (fun acc c => 10 * acc + digitVal c) 0

/-- JavaScript `Number(string)`, restricted to the strings that occur in the
keypad pipeline: the empty string converts to `0`, a string of decimal digits
to its value, and anything else to `NaN` (`none`).  (Signs, decimal points,
hex literals and whitespace trimming are not modelled; the UI's `filterInput`
restricts keypad input to ASCII letters, digits and dashes.) -/
def jsNum (cs : List Char) : Option ℚ :=
  if cs = [] then some 0
  else if cs.all Char.isDigit then some (natOfDigits cs) else none

/-- JavaScript `String.fromCharCode`: the argument is converted with
`ToUint16` (reduction mod 2^16) and the resulting code unit becomes the
character.  (Codes in the surrogate range, unreachable for map-sized inputs,
would produce lone surrogates in JavaScript; `Char.ofNat` maps them to `\x00`.) -/
def jsFromCharCode (n : ℤ) : Char :=
  Char.ofNat (n % 65536).toNat

/-- JavaScript `x % y` (sign-of-dividend remainder, exact on rationals). -/
def jsMod (a b : ℚ) : ℚ :=
  a - b * (if 0 ≤ a / b then (⌊a / b⌋ : ℚ) else (⌈a / b⌉ : ℚ))

/-- JavaScript `Math.round` (half-up, toward +∞). -/
def jsRound (q : ℚ) : ℤ := ⌊q + 1 / 2⌋

/-- Last `n` characters of a string, i.e. `substr(-n)` for `0 < n`. -/
def takeLast (n : ℕ) (l : List Char) : List Char := l.drop (l.length - n)

/-- JavaScript `split("-")`: always at least one (possibly empty) part. -/
def splitDash : List Char → List (List Char)
  | [] => [[]]
  | c :: rest =>
    match splitDash rest with
    | [] => [[c]]
    | h :: t => if c = '-' then [] :: h :: t else (c :: h) :: t

/-- JavaScript `Array.prototype.join("-")`. -/
def joinDash : List (List Char) → List Char
  | [] => []
  | [p] => p
  | p :: ps => p ++ '-' :: joinDash ps

/-! ### Keypad codec: `formatKeyPad`, `getPos` (decode), `getKP` (encode) -/

/-- JS `formatKeyPad(text)`: uppercase, strip dashes, regroup as a 3-character
macro part followed by single-character sub-parts, re-joined with dashes.
Returns `none` (JavaScript `undefined`) on the empty string. -/
def formatKeyPad (text : List Char) : Option (List Char) :=
  if text.length = 0 then none
  else
    let TEXTND := (text.map toUpperChar).filter (fun c => c ≠ '-')
    let TEXTPARTS := TEXTND.take 3 :: (TEXTND.drop 3).map (fun c => [c])
    some (joinDash TEXTPARTS)

/-- Contribution of the sub-keypad part at 1-based index `i` in `getPos`'s
loop: `(interval * subX, interval * subY)`, `none` when the part is not
numeric (the `NaN` poison value). -/
def subContrib (i : ℕ) (part : List Char) : Option ℚ × Option ℚ :=
  let SUB := jsNum part
  let interval : ℚ := 300 / 3 ^ i
  (SUB.map fun s => interval * jsMod (s - 1) 3,
   SUB.map fun s => interval * (2 - ((⌈s / 3⌉ : ℚ) - 1)))

/-- The `while` loop of `getPos` over the sub-keypad parts (1-based index). -/
def getPosLoop (lat lng : Option ℚ) (i : ℕ) : List (List Char) → Option ℚ × Option ℚ
  | [] => (lat, lng)
  | p :: rest =>
    let c := subContrib i p
    getPosLoop (Option.map₂ (· + ·) lat c.1) (Option.map₂ (· + ·) lng c.2) (i + 1) rest

/-- Final half-interval shift of `getPos`: point at the center of the deepest
sub-keypad.  `len` is `PARTS.length`. -/
def withCenter (p : Option ℚ × Option ℚ) (len : ℕ) : Option ℚ × Option ℚ :=
  let interval : ℚ := 300 / 3 ^ (len - 1)
  (p.1.map (· + interval / 2), p.2.map (· + interval / 2))

/-- Body of `getPos` on the dash-separated parts list. -/
def getPosParts : List (List Char) → Option ℚ × Option ℚ
  | [] => (some 450, some 450)
    -- unreachable: `splitDash` never returns an empty list.  (JavaScript
    -- would compute `interval = 300 / 3 ** (-1) = 900` and return 450/450.)
  | PART0 :: SUBS =>
    match PART0 with
    | [] =>
      -- `charCodeAt(0)` on the empty part is `NaN`; `NaN < 65` is false, so
      -- there is no early return: the letter index poisons `lat`, while
      -- `Number("".slice(1)) - 1 = -1` contributes `-300` to `lng`.
      withCenter (getPosLoop none (some (300 * (-1 : ℚ))) 1 SUBS) (SUBS.length + 1)
    | c :: numChars =>
      if c.toNat < 65 then (none, none)  -- letter below 'A': invalid position
      else
        withCenter
          (getPosLoop (some (300 * ((c.toNat : ℚ) - 65)))
            ((jsNum numChars).map fun n => 300 * (n - 1)) 1 SUBS)
          (SUBS.length + 1)

/-- JS `getPos(kp)`: keypad string to planar coordinates.  The outer `none`
models the `TypeError` thrown when `formatKeyPad` returns `undefined` (empty
input) and `.split` is called on it; the inner `none`s are `NaN` coordinates. -/
def getPos (kp : List Char) : Option (Option ℚ × Option ℚ) :=
  match formatKeyPad kp with
  | none => none
  | some FORMATTED => some (getPosParts (splitDash FORMATTED))

/-- Interval of the sub-keypad at depth `k` (`300 / 3 ** k`; depth 0 is the
macro keypad). -/
def subIv (k : ℕ) : ℚ := 300 / 3 ^ k

/-- JS `pad(num, size)`: zero-padding, `` `0000${num}`.substr(-size) ``. -/
def pad (num : ℤ) (size : ℕ) : List Char :=
  takeLast size ("0000".data ++ (Int.repr num).data)

/-- The macro-cell letter of `getKP`: `String.fromCharCode(65 + ⌊x/300⌋)`,
with the documented quirk that codes past 'Z' skip 6 code points into the
lowercase letters (PostScriptum Arnhem A→Z then a→b fix). -/
def kpLetterOf (x : ℚ) : Char :=
  let kpCharCode : ℤ := 65 + ⌊x / subIv 0⌋
  if 90 < kpCharCode then jsFromCharCode (kpCharCode + 6) else jsFromCharCode kpCharCode

/-- The macro-cell number of `getKP`: `⌊y/300⌋ + 1`. -/
def kpNumberOf (y : ℚ) : ℤ := ⌊y / subIv 0⌋ + 1

/-- The macro-cell part of a `getKP` result: letter followed by the 2-digit
zero-padded number. -/
def kpMac (x y : ℚ) : List Char := kpLetterOf x :: pad (kpNumberOf y) 2

/-- Sub-keypad digit of `getKP` at depth `k`:
`10 - (subY + 1) * 3 + subX` with `subY = ⌊y/s_k⌋ % 3`, `subX = ⌊x/s_k⌋ % 3`. -/
def subNumAt (x y : ℚ) (k : ℕ) : ℤ :=
  10 - (⌊y / subIv k⌋ % 3 + 1) * 3 + ⌊x / subIv k⌋ % 3

/-- One dash-prefixed sub-keypad digit, `` `-${subNumber}` ``. -/
def dashNum (n : ℤ) : List Char := '-' :: (Int.repr n).data

/-- JS `getKP(lat, lng, precision)`.  `precision` is the optional argument
(`none` when not passed); `zoom` is the ambient `globalData.minimap.getZoom()`
read when `precision` is falsy — which, by JavaScript truthiness, includes an
explicitly passed `0`. -/
def getKP (lat lng : ℚ) (precision : Option ℚ) (zoom : ℚ) : List Char :=
  let x := lng
  let y := lat
  if x < 0 ∨ y < 0 then "XXX-X-X".data  -- outside of min bounds
  else
    let precision' : ℚ :=
      match precision with
      | none => zoom
      | some q => if q = 0 then zoom else q
    if precision' = 0 ∨ precision' = 1 ∨ precision' = 2 then kpMac x y
    else if precision' = 3 then kpMac x y ++ dashNum (subNumAt x y 1)
    else if precision' = 4 then
      kpMac x y ++ dashNum (subNumAt x y 1) ++ dashNum (subNumAt x y 2)
    else if precision' = 5 then
      kpMac x y ++ dashNum (subNumAt x y 1) ++ dashNum (subNumAt x y 2) ++
        dashNum (subNumAt x y 3)
    else
      kpMac x y ++ dashNum (subNumAt x y 1) ++ dashNum (subNumAt x y 2) ++
        dashNum (subNumAt x y 3) ++ dashNum (subNumAt x y 4)

/-! ### Geometry -/

/-- JavaScript `Math.atan2(y, x)` on the reals (zero-sign subtleties of IEEE
signed zeros do not arise on `ℝ`). -/
noncomputable def jsAtan2 (y x : ℝ) : ℝ :=
  if 0 < x then Real.arctan (y / x)
  else if x < 0 then
    (if 0 ≤ y then Real.arctan (y / x) + Real.pi else Real.arctan (y / x) - Real.pi)
  else if 0 < y then Real.pi / 2
  else if y < 0 then -(Real.pi / 2)
  else 0

/-- JS `getBearing(a, b)`: compass bearing from `a` to `b`, `none` when a
coordinate is `NaN`. -/
noncomputable def getBearing (a b : Option ℝ × Option ℝ) : Option ℝ :=
  Option.map₂
    (fun dlng dlat =>
      let bearing := jsAtan2 dlng dlat * 180 / Real.pi + 90
      if bearing < 0 then bearing + 360 else bearing)
    (Option.map₂ (fun u v => u - v) b.2 a.2) (Option.map₂ (fun u v => u - v) b.1 a.1)

/-- JS `getDist(a, b) = Math.hypot(a.lat - b.lat, a.lng - b.lng)`. -/
noncomputable def getDist (a b : Option ℝ × Option ℝ) : Option ℝ :=
  Option.map₂ (fun dlat dlng => Real.sqrt (dlat ^ 2 + dlng ^ 2))
    (Option.map₂ (fun u v => u - v) a.1 b.1) (Option.map₂ (fun u v => u - v) a.2 b.2)

/-! ### Unit and angle converters -/

noncomputable def degToRad (deg : ℝ) : ℝ := deg * Real.pi / 180

noncomputable def radToDeg (rad : ℝ) : ℝ := rad * 180 / Real.pi

noncomputable def degToMil (deg : ℝ) : ℝ := deg / (360 / 6400)

noncomputable def radToMil (rad : ℝ) : ℝ := degToMil (radToDeg rad)

/-! ### Ambient configuration (`globalData`, `MAPS`, weapon) as explicit
read-only records -/

/-- The active weapon's capabilities read by the solver (`angleType` is the
result of `getAngleType()`, the ±1 arc selector; `getVelocity` is the
external velocity table, lifted to propagate `NaN`). -/
structure Weapon where
  gravityScale : ℝ
  angleType : ℝ
  moa : ℝ
  unit : List Char
  minElevation1 : ℝ
  name : List Char
  getVelocity : Option ℝ → Option ℝ

/-- One entry of the `MAPS` configuration table. -/
structure MapData where
  size : ℚ
  offset0 : ℚ
  offset1 : ℚ
  scaling : ℚ

/-- One RGBA pixel read from the heightmap canvas. -/
structure RGBA where
  r : ℕ
  g : ℕ
  b : ℕ
  alpha : ℕ

/-- The part of `globalData` the height lookup reads: the selected map value
(`none` = `undefined`), the `MAPS` table, the canvas size, and the canvas
pixel sampler (`ctx.getImageData`). -/
structure HeightEnv where
  activeMap : Option ℤ
  maps : List MapData
  canvasSize : ℚ
  sampler : ℤ → ℤ → RGBA

/-- The ambient `globalData` read by `shoot` and the solvers. -/
structure Env where
  hEnv : HeightEnv
  gravity : ℝ
  activeWeapon : Weapon

/-! ### Height lookup -/

/-- JavaScript truthiness of `globalData.activeMap` (a map index or
`undefined`): `undefined` and `0` are falsy. -/
def jsFalsy : Option ℤ → Bool
  | none => true
  | some i => i == 0

/-- JS `MAPS.find((elem, index) => index == globalData.activeMap)`: the entry at
the active index, `undefined` outside the table. -/
def mapsFind (env : HeightEnv) : Option MapData :=
  match env.activeMap with
  | none => none
  | some i => if i < 0 then none else env.maps[i.toNat]?

/-- JS `Math.round` of a possibly-`NaN` value as a canvas pixel index: the
canvas API coerces `NaN` to `0`. -/
def toIdx : Option ℚ → ℤ
  | none => 0
  | some q => jsRound q

/-- JS `getOffsetLatLng(pos)`: apply the active map's offset and scaling.  The
outer `none` models the `TypeError` thrown when `MAPS.find` returns
`undefined` and `.size` is read from it. -/
def getOffsetLatLng (env : HeightEnv) (pos : Option ℚ × Option ℚ) :
    Option (Option ℚ × Option ℚ) :=
  match mapsFind env with
  | none => none
  | some m =>
    let mapScale : ℚ := env.canvasSize / m.size
    some (pos.1.map fun v => (v + m.offset0 * mapScale) * mapScale,
          pos.2.map fun v => (v + m.offset1 * mapScale) * mapScale)

/-- JS `getHeight`'s union result type: a numeric height delta, or the
`"AERROR"` / `"BERROR"` sentinel strings. -/
inductive HeightResult where
  | num (h : ℚ)
  | aerr
  | berr
deriving DecidableEq

/-- JS `getHeight(a, b)`: height delta between two points via the heightmap
canvas; `0` without an active map; sentinels when a point reads an
out-of-canvas pixel (blue and red channels both 0). -/
def getHeight (env : HeightEnv) (a b : Option ℚ × Option ℚ) : Option HeightResult :=
  if jsFalsy env.activeMap then some (HeightResult.num 0)
  else
    match getOffsetLatLng env a, getOffsetLatLng env b with
    | some AOffset, some BOffset =>
      let Aheight := env.sampler (toIdx AOffset.1) (toIdx AOffset.2)
      let Bheight := env.sampler (toIdx BOffset.1) (toIdx BOffset.2)
      if Aheight.b = 0 ∧ Aheight.r = 0 then some HeightResult.aerr
      else if Bheight.b = 0 ∧ Bheight.r = 0 then some HeightResult.berr
      else
        match mapsFind env with
        | none => none
        | some m =>
          some (HeightResult.num ((255 + (Bheight.r : ℚ) - (Bheight.b : ℚ)) * m.scaling
            - (255 + (Aheight.r : ℚ) - (Aheight.b : ℚ)) * m.scaling))
    | _, _ => none

/-! ### Ballistic solver -/

/-- JS `Math.sqrt`, `NaN` (= `none`) on negative input. -/
noncomputable def jsSqrt (x : ℝ) : Option ℝ :=
  if x < 0 then none else some (Real.sqrt x)

/-- JS `getElevation(dist, vDelta, vel)`: the firing angle, `none` (`NaN`) when
the ballistic discriminant is negative or an input is already `NaN`. -/
noncomputable def getElevation (env : Env) (dist vDelta vel : Option ℝ) : Option ℝ :=
  match dist, vDelta, vel with
  | some d, some vD, some v =>
    let gravity := env.gravity * env.activeWeapon.gravityScale
    (jsSqrt (v ^ 4 - gravity * (gravity * d ^ 2 + 2 * vD * v ^ 2))).map
      fun P1 => Real.arctan ((v ^ 2 - P1 * env.activeWeapon.angleType) / (gravity * d))
  | _, _, _ => none

/-- JS `getVerticalSpread(angle, vel)`: `NaN` results collapse to 0. -/
noncomputable def getVerticalSpread (env : Env) (angle vel : Option ℝ) : ℝ :=
  let moa := degToRad (env.activeWeapon.moa / 2 / 60)
  let gravity := env.gravity * env.activeWeapon.gravityScale
  match angle, vel with
  | some ang, some v =>
    let verticalSpread1 := v ^ 2 * Real.sin (2 * (ang + moa)) / gravity
    let verticalSpread2 := v ^ 2 * Real.sin (2 * (ang - moa)) / gravity
    |verticalSpread2 - verticalSpread1|
  | _, _ => 0

/-- JavaScript `Math.atanh` on its domain `(-1, 1)`:
`atanh x = log((1+x)/(1-x)) / 2`.  (At `±1` JavaScript returns `±∞`; this
model returns `0` there, a divergence only at that isolated point.) -/
noncomputable def jsAtanh (x : ℝ) : ℝ := Real.log ((1 + x) / (1 - x)) / 2

/-- JS `getProjectilePathDistance(angle, velocity, gravity)`. -/
noncomputable def getProjectilePathDistance (angle velocity gravity : ℝ) : ℝ :=
  let p1 := velocity ^ 2 / gravity
  let p2 := Real.sin angle + Real.cos angle ^ 2 * jsAtanh (Real.sin angle)
  |p1 * p2|

/-- JS `getHorizontalSpread(angle, velocity, gravity)`: `NaN` collapses to 0. -/
noncomputable def getHorizontalSpread (env : Env) (angle : Option ℝ)
    (velocity gravity : ℝ) : ℝ :=
  match angle with
  | some ang =>
    let MOA := env.activeWeapon.moa / 60
    let p1 := 2 * Real.pi * getProjectilePathDistance ang velocity gravity
    MOA / 360 * p1
  | none => 0

/-- Spread ellipse record (`ellipseAngle` is `NaN` when the angle is). -/
structure EllipseParams where
  semiMajorAxis : ℝ
  semiMinorAxis : ℝ
  ellipseAngle : Option ℝ

/-- Result record of `getElevationWithEllipseParams`. -/
structure ElevationResult where
  elevationAngle : Option ℝ
  ellipseParams : EllipseParams

/-- JS `getElevationWithEllipseParams(dist, vDelta, vel)`: the map-UI solver,
computing the same elevation angle plus the spread ellipse. -/
noncomputable def getElevationWithEllipseParams (env : Env)
    (dist vDelta vel : Option ℝ) : ElevationResult :=
  match dist, vDelta, vel with
  | some d, some vD, some v =>
    let gravity := env.gravity * env.activeWeapon.gravityScale
    let P1 := jsSqrt (v ^ 4 - gravity * (gravity * d ^ 2 + 2 * vD * v ^ 2))
    let angle := P1.map
      fun p => Real.arctan ((v ^ 2 - p * env.activeWeapon.angleType) / (gravity * d))
    let ellipseParams : EllipseParams :=
      if env.activeWeapon.moa ≠ 0 then
        ⟨getHorizontalSpread env angle v gravity, getVerticalSpread env angle (some v),
          angle.map (· * (180 / Real.pi))⟩
      else ⟨0, 0, some 0⟩
    ⟨angle, ellipseParams⟩
  | _, _, _ =>
    -- a NaN input poisons the angle; both spreads collapse to 0 in their
    -- isNaN checks, and the ellipse angle inherits the NaN
    ⟨none, if env.activeWeapon.moa ≠ 0 then ⟨0, 0, none⟩ else ⟨0, 0, some 0⟩⟩

/-! ### Orchestration: `shoot` -/

/-- The tagged outcome of one `shoot` call (each failure is identified by the
error message and blamed field it displays; `insertCalc` is the success
path). -/
inductive ShootResult where
  | tooShort
  | invalidBoth
  | invalidMortar
  | invalidTarget
  | mortarOutOfMap
  | targetOutOfMap
  | outOfRange
  | tooClose
  | insertCalc (bearing : Option ℝ) (elevation : ℝ) (distance : Option ℝ)
      (vel : Option ℝ) (height : ℚ)

/-- Decoded keypad coordinates as real numbers for the geometry/ballistics. -/
def toRPoint (p : Option ℚ × Option ℚ) : Option ℝ × Option ℝ :=
  (p.1.map fun q => (q : ℝ), p.2.map fun q => (q : ℝ))

/-- The unit conversion `shoot` applies to the raw elevation angle: NATO mils
or degrees, with the hardcoded `Technical` −5° correction. -/
noncomputable def convertedElevation (env : Env) (elevation : Option ℝ) : Option ℝ :=
  if env.activeWeapon.unit = "mil".data then elevation.map radToMil
  else
    let e := elevation.map radToDeg
    if env.activeWeapon.name = "Technical".data then e.map (· - 5) else e

/-- JS `shoot()`: the classic-UI solve.  DOM reads/writes (`resetCalc`,
`setCursor`, `showError`, `insertCalc`) are display-only and are represented
by the tagged result; the outer `none` models an uncaught exception. -/
noncomputable def shoot (env : Env) (a b : List Char) : Option ShootResult :=
  if a.length < 3 ∨ b.length < 3 then some ShootResult.tooShort
  else
    match getPos a, getPos b with
    | some aPos, some bPos =>
      if aPos.2 = none ∨ bPos.2 = none then
        if aPos.2 = none ∧ bPos.2 = none then some ShootResult.invalidBoth
        else if aPos.2 = none then some ShootResult.invalidMortar
        else some ShootResult.invalidTarget
      else
        match getHeight env.hEnv aPos bPos with
        | none => none
        | some HeightResult.aerr => some ShootResult.mortarOutOfMap
        | some HeightResult.berr => some ShootResult.targetOutOfMap
        | some (HeightResult.num height) =>
          let distance := getDist (toRPoint aPos) (toRPoint bPos)
          let bearing := getBearing (toRPoint aPos) (toRPoint bPos)
          let vel := env.activeWeapon.getVelocity distance
          let elevation :=
            convertedElevation env (getElevation env distance (some ((height : ℚ) : ℝ)) vel)
          match elevation with
          | none => some ShootResult.outOfRange
          | some e =>
            if env.activeWeapon.minElevation1 < e then some ShootResult.tooClose
            else some (ShootResult.insertCalc bearing e distance vel height)
    | _, _ => none

/-! ### Proof-scaffolding definitions (describing encoder outputs and the
spec's depth vocabulary; used only to state and prove the theorems below) -/

/-- Sub-keypad digit layout 7-8-9 / 4-5-6 / 1-2-3 for row `r`, column `c`. -/
def digitN (r c : ℕ) : ℕ := 10 - (r + 1) * 3 + c

/-- Partial decoded sum `Σ_{k=1}^{n} subIv k * (⌊a·3^k/300⌋ % 3)`. -/
def colSum (a : ℕ) : ℕ → ℚ
  | 0 => 0
  | n + 1 => colSum a n + subIv (n + 1) * (((a * 3 ^ (n + 1) / 300) % 3 : ℕ) : ℚ)

/-- The dash-separated sub-keypad digit parts produced by the encoder at
depths `1..n`. -/
def kpDigits (x y : ℚ) (n : ℕ) : List (List Char) :=
  (List.range n).map (fun j => (Int.repr (subNumAt x y (j + 1))).data)

/-- The canonical dashed keypad string with macro cell and `n` sub-digits. -/
def kpString (x y : ℚ) (n : ℕ) : List Char :=
  joinDash (kpMac x y :: kpDigits x y n)

/-- Number of sub-digits emitted at precision `d ∈ 1..6`. -/
def nsubs (d : ℕ) : ℕ := if d ≤ 2 then 0 else d - 2

/-- Side length of a cell at spec depth `d` (`d ≤ 2` is the macro cell). -/
def cellWidth (d : ℕ) : ℚ := if d ≤ 2 then 300 else 300 / 3 ^ (d - 2)

/-! ### Lemmas: `splitDash` / `joinDash` round trip on canonical strings -/

theorem splitDash_ne_nil (l : List Char) : splitDash l ≠ [] := by
  cases l with
  | nil => simp [splitDash]
  | cons c rest =>
    simp only [splitDash]
    cases h : splitDash rest with
    | nil => simp
    | cons a t => by_cases hc : c = '-' <;> simp [hc]

theorem splitDash_nodash (l : List Char) (h : ∀ c ∈ l, c ≠ '-') : splitDash l = [l] := by
  induction l with
  | nil => rfl
  | cons c rest ih =>
    have hc : c ≠ '-' := h c (by simp)
    have : splitDash rest = [rest] := ih (fun d hd => h d (by simp [hd]))
    simp [splitDash, this, hc]

theorem splitDash_dash_cons (r : List Char) : splitDash ('-' :: r) = [] :: splitDash r := by
  simp only [splitDash]
  cases h : splitDash r with
  | nil => exact absurd h (splitDash_ne_nil r)
  | cons a t => simp

theorem splitDash_append (p r : List Char) (hp : ∀ c ∈ p, c ≠ '-') :
    splitDash (p ++ '-' :: r) = p :: splitDash r := by
  induction p with
  | nil => simpa using splitDash_dash_cons r
  | cons c p' ih =>
    have hc : c ≠ '-' := hp c (by simp)
    have h' := ih (fun d hd => hp d (by simp [hd]))
    rw [List.cons_append]
    simp only [splitDash]
    rw [h']
    simp [hc]

theorem joinDash_cons (p : List Char) (q : List Char) (rest : List (List Char)) :
    joinDash (p :: q :: rest) = p ++ '-' :: joinDash (q :: rest) := rfl

theorem splitDash_joinDash (ps : List (List Char)) (hne : ps ≠ [])
    (h : ∀ p ∈ ps, ∀ c ∈ p, c ≠ '-') : splitDash (joinDash ps) = ps := by
  induction ps with
  | nil => exact absurd rfl hne
  | cons p rest ih =>
    cases rest with
    | nil => exact splitDash_nodash p (h p (by simp))
    | cons q rest' =>
      rw [joinDash_cons, splitDash_append p _ (h p (by simp))]
      rw [ih (by simp) (fun s hs c hc => h s (by simp [hs]) c hc)]

theorem joinDash_map_fixed (ps : List (List Char))
    (h : ∀ p ∈ ps, ∀ c ∈ p, toUpperChar c = c) :
    (joinDash ps).map toUpperChar = joinDash ps := by
  induction ps with
  | nil => rfl
  | cons p rest ih =>
    have hp : p.map toUpperChar = p :=
      (List.map_congr_left (fun c hc => h p (by simp) c hc)).trans (List.map_id p)
    cases rest with
    | nil => simpa [joinDash] using hp
    | cons q rest' =>
      have hdash : toUpperChar '-' = '-' := by decide
      have h2 := ih (fun s hs c hc => h s (by simp [hs]) c hc)
      rw [joinDash_cons, List.map_append, hp, List.map_cons, hdash, h2]

theorem joinDash_filter (ps : List (List Char))
    (h : ∀ p ∈ ps, ∀ c ∈ p, c ≠ '-') :
    (joinDash ps).filter (fun c => c ≠ '-') = ps.flatten := by
  induction ps with
  | nil => rfl
  | cons p rest ih =>
    have hp : p.filter (fun c => c ≠ '-') = p :=
      List.filter_eq_self.mpr (fun c hc => by
        simpa using h p (by simp) c hc)
    cases rest with
    | nil => simpa [joinDash] using hp
    | cons q rest' =>
      have h2 := ih (fun s hs c hc => h s (by simp [hs]) c hc)
      rw [joinDash_cons, List.filter_append, hp,
        List.filter_cons_of_neg (by simp), h2]
      simp

theorem map_singleton_flatten (t : List (List Char)) (h : ∀ s ∈ t, ∃ c, s = [c]) :
    (t.flatten).map (fun c => [c]) = t := by
  induction t with
  | nil => rfl
  | cons s t' ih =>
    obtain ⟨c, rfl⟩ := h s (by simp)
    have := ih (fun s hs => h s (by simp [hs]))
    simp [this]

theorem joinDash_head_append (p : List Char) (rest : List (List Char)) :
    ∃ r, joinDash (p :: rest) = p ++ r := by
  cases rest with
  | nil => exact ⟨[], by simp [joinDash]⟩
  | cons q rest' => exact ⟨'-' :: joinDash (q :: rest'), rfl⟩

/-- A keypad string in canonical form (3-character macro part, single-character
sub-parts, all characters uppercase-fixed non-dashes) is a fixed point of
`formatKeyPad`. -/
theorem formatKeyPad_canonical (h : List Char) (t : List (List Char))
    (hlen : h.length = 3)
    (hh : ∀ c ∈ h, toUpperChar c = c ∧ c ≠ '-')
    (ht : ∀ s ∈ t, ∃ c, s = [c] ∧ toUpperChar c = c ∧ c ≠ '-') :
    formatKeyPad (joinDash (h :: t)) = some (joinDash (h :: t)) := by
  have hgood : ∀ p ∈ h :: t, ∀ c ∈ p, c ≠ '-' := by
    intro p hp c hc
    rcases List.mem_cons.mp hp with hp | hp
    · exact (hh c (hp ▸ hc)).2
    · obtain ⟨d, rfl, _, hd⟩ := ht p hp
      simp at hc
      exact hc ▸ hd
  have hfix : ∀ p ∈ h :: t, ∀ c ∈ p, toUpperChar c = c := by
    intro p hp c hc
    rcases List.mem_cons.mp hp with hp | hp
    · exact (hh c (hp ▸ hc)).1
    · obtain ⟨d, rfl, hd, _⟩ := ht p hp
      simp at hc
      exact hc ▸ hd
  obtain ⟨r, hr⟩ := joinDash_head_append h t
  have hlen0 : ¬ (joinDash (h :: t)).length = 0 := by
    rw [hr, List.length_append, hlen]
    omega
  have hnd : ((joinDash (h :: t)).map toUpperChar).filter (fun c => c ≠ '-') =
      h ++ t.flatten := by
    rw [joinDash_map_fixed _ hfix, joinDash_filter _ hgood, List.flatten_cons]
  have htake : (h ++ t.flatten).take 3 = h := List.take_left' hlen
  have hdrop : (h ++ t.flatten).drop 3 = t.flatten := List.drop_left' hlen
  have hsing : (t.flatten).map (fun c => [c]) = t :=
    map_singleton_flatten t (fun s hs => (ht s hs).imp (fun c hc => hc.1))
  rw [formatKeyPad, if_neg hlen0]
  simp only [hnd, htake, hdrop, hsing]

/-- On a canonical keypad string, `getPos` acts as `getPosParts` on the parts. -/
theorem getPos_canonical (h : List Char) (t : List (List Char))
    (hlen : h.length = 3)
    (hh : ∀ c ∈ h, toUpperChar c = c ∧ c ≠ '-')
    (ht : ∀ s ∈ t, ∃ c, s = [c] ∧ toUpperChar c = c ∧ c ≠ '-') :
    getPos (joinDash (h :: t)) = some (getPosParts (h :: t)) := by
  have hgood : ∀ p ∈ h :: t, ∀ c ∈ p, c ≠ '-' := by
    intro p hp c hc
    rcases List.mem_cons.mp hp with hp | hp
    · exact (hh c (hp ▸ hc)).2
    · obtain ⟨d, rfl, _, hd⟩ := ht p hp
      simp at hc
      exact hc ▸ hd
  rw [getPos, formatKeyPad_canonical h t hlen hh ht]
  exact congrArg (fun l => some (getPosParts l)) (splitDash_joinDash _ (by simp) hgood)

/-! ### Lemmas: exact arithmetic of the keypad subdivision -/

theorem subIv_pos (k : ℕ) : 0 < subIv k := by
  rw [subIv]
  positivity

theorem subIv_le_300 (k : ℕ) : subIv k ≤ 300 := by
  rw [subIv]
  exact div_le_self (by norm_num) (one_le_pow₀ (by norm_num))

theorem subIv_zero : subIv 0 = 300 := by norm_num [subIv]

theorem subIv_succ_mul (k : ℕ) : subIv k = 3 * subIv (k + 1) := by
  rw [subIv, subIv, pow_succ]
  field_simp
  ring

/-- JS `Math.floor` of a natural number divided by the depth-`k` interval is the
natural division `a * 3^k / 300`. -/
theorem floor_nat_div (a k : ℕ) : ⌊(a : ℚ) / subIv k⌋ = ((a * 3 ^ k / 300 : ℕ) : ℤ) := by
  have h1 : (a : ℚ) / subIv k = (((a * 3 ^ k : ℕ) : ℤ) : ℚ) / ((300 : ℕ) : ℚ) := by
    rw [subIv]
    push_cast
    rw [div_div_eq_mul_div]
  rw [h1, Rat.floor_intCast_div_natCast, Int.ofNat_ediv]

/-- JavaScript `%` on a natural number and 3 is the natural `% 3`. -/
theorem jsMod_natCast3 (m : ℕ) : jsMod (m : ℚ) 3 = ((m % 3 : ℕ) : ℚ) := by
  have hfl : ⌊(m : ℚ) / 3⌋ = ((m / 3 : ℕ) : ℤ) := by
    have h1 : (m : ℚ) / 3 = (((m : ℕ) : ℤ) : ℚ) / ((3 : ℕ) : ℚ) := by push_cast; ring
    rw [h1, Rat.floor_intCast_div_natCast, Int.ofNat_ediv]
  have hpos : (0 : ℚ) ≤ (m : ℚ) / 3 := by positivity
  rw [jsMod, if_pos hpos, hfl]
  have h := Nat.div_add_mod m 3
  have hq := congrArg (fun n : ℕ => (n : ℚ)) h
  push_cast at hq
  have hdc : ((((m / 3 : ℕ) : ℤ)) : ℚ) = ((m / 3 : ℕ) : ℚ) := Int.cast_natCast _
  rw [hdc]
  linarith

/-- JS `Math.ceil` of a natural number divided by 3. -/
theorem ceil_natCast_div3 (m : ℕ) : ⌈(m : ℚ) / 3⌉ = (((m + 2) / 3 : ℕ) : ℤ) := by
  have h1 : 3 * ((m + 2) / 3) ≤ m + 2 := by omega
  have h2 : m ≤ 3 * ((m + 2) / 3) := by omega
  have hq1 : 3 * ((((m + 2) / 3 : ℕ) : ℤ) : ℚ) ≤ (m : ℚ) + 2 := by exact_mod_cast h1
  have hq2 : (m : ℚ) ≤ 3 * ((((m + 2) / 3 : ℕ) : ℤ) : ℚ) := by exact_mod_cast h2
  rw [Int.ceil_eq_iff]
  constructor
  · rw [lt_div_iff (by norm_num : (0 : ℚ) < 3)]
    linarith
  · rw [div_le_iff (by norm_num : (0 : ℚ) < 3)]
    linarith

theorem digitN_range (r c : ℕ) (hr : r < 3) (hc : c < 3) :
    1 ≤ digitN r c ∧ digitN r c ≤ 9 := by
  interval_cases r <;> interval_cases c <;> decide

/-- The encoder digit at depth `k` for natural-number coordinates. -/
theorem subNumAt_natCast (a b k : ℕ) :
    subNumAt (a : ℚ) (b : ℚ) k
      = ((digitN (b * 3 ^ k / 300 % 3) (a * 3 ^ k / 300 % 3) : ℕ) : ℤ) := by
  rw [subNumAt, floor_nat_div, floor_nat_div, digitN]
  set bD := b * 3 ^ k / 300
  set aD := a * 3 ^ k / 300
  omega

/-- Decoding a sub-keypad digit recovers its column index. -/
theorem decode_digit_col (r c : ℕ) (hr : r < 3) (hc : c < 3) :
    jsMod ((digitN r c : ℚ) - 1) 3 = (c : ℚ) := by
  have h1 : 1 ≤ digitN r c := (digitN_range r c hr hc).1
  have h2 : (digitN r c : ℚ) - 1 = ((digitN r c - 1 : ℕ) : ℚ) := by
    push_cast [h1]
    ring
  rw [h2, jsMod_natCast3]
  have : (digitN r c - 1) % 3 = c := by interval_cases r <;> interval_cases c <;> decide
  rw [this]

/-- Decoding a sub-keypad digit recovers its row index. -/
theorem decode_digit_row (r c : ℕ) (hr : r < 3) (hc : c < 3) :
    2 - ((⌈(digitN r c : ℚ) / 3⌉ : ℚ) - 1) = (r : ℚ) := by
  rw [ceil_natCast_div3]
  have h3 : (digitN r c + 2) / 3 = 3 - r := by
    interval_cases r <;> interval_cases c <;> decide
  rw [h3]
  have hr3 : r ≤ 3 := by omega
  push_cast [hr3]
  ring

theorem div_step (a n : ℕ) :
    a * 3 ^ (n + 1) / 300 = 3 * (a * 3 ^ n / 300) + (a * 3 ^ (n + 1) / 300) % 3 := by
  have e0 : a * 3 ^ (n + 1) = (a * 3 ^ n) * 3 := by ring
  have e1 : a * 3 ^ (n + 1) / 300 / 3 = a * 3 ^ n / 300 := by
    rw [Nat.div_div_eq_div_mul, e0, Nat.mul_div_mul_right _ _ (by norm_num : 0 < 3)]
  have := Nat.div_add_mod (a * 3 ^ (n + 1) / 300) 3
  omega

theorem telescope (a n : ℕ) :
    subIv n * ((a * 3 ^ n / 300 : ℕ) : ℚ)
      + subIv (n + 1) * (((a * 3 ^ (n + 1) / 300) % 3 : ℕ) : ℚ)
      = subIv (n + 1) * ((a * 3 ^ (n + 1) / 300 : ℕ) : ℚ) := by
  rw [subIv_succ_mul n]
  have h := div_step a n
  have hq : ((a * 3 ^ (n + 1) / 300 : ℕ) : ℚ)
      = 3 * ((a * 3 ^ n / 300 : ℕ) : ℚ) + (((a * 3 ^ (n + 1) / 300) % 3 : ℕ) : ℚ) := by
    exact_mod_cast congrArg (Nat.cast : ℕ → ℚ) h
  rw [hq]
  ring

theorem colSum_eq (a n : ℕ) :
    300 * ((a / 300 : ℕ) : ℚ) + colSum a n = subIv n * ((a * 3 ^ n / 300 : ℕ) : ℚ) := by
  induction n with
  | zero =>
    rw [colSum, subIv_zero]
    norm_num
  | succ n ih =>
    rw [colSum, ← add_assoc, ih, telescope]

theorem D_bounds (a n : ℕ) :
    subIv n * ((a * 3 ^ n / 300 : ℕ) : ℚ) ≤ (a : ℚ)
      ∧ (a : ℚ) < subIv n * ((a * 3 ^ n / 300 : ℕ) : ℚ) + subIv n := by
  have hp : (0 : ℚ) < 3 ^ n := by positivity
  have h := Nat.div_add_mod (a * 3 ^ n) 300
  have hr : (a * 3 ^ n) % 300 < 300 := Nat.mod_lt _ (by norm_num)
  have h1 : (300 : ℚ) * ((a * 3 ^ n / 300 : ℕ) : ℚ) ≤ (a : ℚ) * 3 ^ n := by
    exact_mod_cast by omega
  have h2 : (a : ℚ) * 3 ^ n < 300 * ((a * 3 ^ n / 300 : ℕ) : ℚ) + 300 := by
    exact_mod_cast by omega
  constructor
  · rw [← mul_le_mul_right hp]
    have e : subIv n * ((a * 3 ^ n / 300 : ℕ) : ℚ) * 3 ^ n
        = 300 * ((a * 3 ^ n / 300 : ℕ) : ℚ) := by
      rw [subIv]
      field_simp
    rw [e]
    exact h1
  · rw [← mul_lt_mul_right hp]
    have e : (subIv n * ((a * 3 ^ n / 300 : ℕ) : ℚ) + subIv n) * 3 ^ n
        = 300 * ((a * 3 ^ n / 300 : ℕ) : ℚ) + 300 := by
      rw [subIv]
      field_simp
    rw [e]
    exact h2

/-! ### Lemmas: decoding an encoded keypad string -/

theorem jsNum_of_digits (cs : List Char) (hne : ¬ cs = [])
    (hd : cs.all Char.isDigit = true) :
    jsNum cs = some ((natOfDigits cs : ℕ) : ℚ) := by
  rw [jsNum, if_neg hne, if_pos hd]

theorem jsFromCharCode_small (n : ℕ) (h : n < 65536) :
    jsFromCharCode (n : ℤ) = Char.ofNat n := by
  rw [jsFromCharCode, Int.emod_eq_of_lt (by positivity) (by exact_mod_cast h),
    Int.toNat_natCast]

theorem letter_facts : ∀ i : ℕ, i < 26 →
    (toUpperChar (Char.ofNat (65 + i)) = Char.ofNat (65 + i)
     ∧ (Char.ofNat (65 + i)).toNat = 65 + i
     ∧ Char.ofNat (65 + i) ≠ '-'
     ∧ ¬ (Char.ofNat (65 + i)).toNat < 65) := by decide

theorem pad_repr_facts : ∀ n : ℕ, n < 27 →
    (¬ pad (n : ℤ) 2 = [] ∧ (pad (n : ℤ) 2).all Char.isDigit = true
     ∧ natOfDigits (pad (n : ℤ) 2) = n
     ∧ (pad (n : ℤ) 2).length = 2
     ∧ ∀ c ∈ pad (n : ℤ) 2, toUpperChar c = c ∧ c ≠ '-') := by decide

theorem digit_repr_facts : ∀ d : ℕ, d < 10 → 1 ≤ d →
    (¬ (Int.repr (d : ℤ)).data = [] ∧ (Int.repr (d : ℤ)).data.all Char.isDigit = true
     ∧ natOfDigits ((Int.repr (d : ℤ)).data) = d
     ∧ (Int.repr (d : ℤ)).data.length = 1
     ∧ ∀ c ∈ (Int.repr (d : ℤ)).data, toUpperChar c = c ∧ c ≠ '-') := by decide

theorem kpLetterOf_natCast (a : ℕ) (ha : a < 7800) :
    kpLetterOf (a : ℚ) = Char.ofNat (65 + a / 300) := by
  have hfl : ⌊(a : ℚ) / subIv 0⌋ = ((a / 300 : ℕ) : ℤ) := by
    have h := floor_nat_div a 0
    simpa using h
  rw [kpLetterOf]
  rw [hfl]
  have hlt : a / 300 < 26 := by omega
  have hle : ¬ (90 : ℤ) < 65 + ((a / 300 : ℕ) : ℤ) := by
    push_cast
    omega
  rw [if_neg hle]
  have hc : (65 : ℤ) + ((a / 300 : ℕ) : ℤ) = ((65 + a / 300 : ℕ) : ℤ) := by
    push_cast
    ring
  rw [hc, jsFromCharCode_small _ (by omega)]

theorem kpNumberOf_natCast (b : ℕ) :
    kpNumberOf (b : ℚ) = ((b / 300 + 1 : ℕ) : ℤ) := by
  have hfl : ⌊(b : ℚ) / subIv 0⌋ = ((b / 300 : ℕ) : ℤ) := by
    have h := floor_nat_div b 0
    simpa using h
  rw [kpNumberOf, hfl]
  push_cast
  ring

theorem kpMac_natCast (a b : ℕ) (ha : a < 7800) :
    kpMac (a : ℚ) (b : ℚ) = Char.ofNat (65 + a / 300) :: pad ((b / 300 + 1 : ℕ) : ℤ) 2 := by
  rw [kpMac, kpLetterOf_natCast a ha, kpNumberOf_natCast]

theorem kpDigits_succ (x y : ℚ) (n : ℕ) :
    kpDigits x y (n + 1) = kpDigits x y n ++ [(Int.repr (subNumAt x y (n + 1))).data] := by
  simp [kpDigits, List.range_succ]

theorem getPosLoop_append (lat lng : Option ℚ) (i : ℕ) (l l' : List (List Char)) :
    getPosLoop lat lng i (l ++ l')
      = getPosLoop (getPosLoop lat lng i l).1 (getPosLoop lat lng i l).2 (i + l.length) l' := by
  induction l generalizing lat lng i with
  | nil => simp [getPosLoop]
  | cons p rest ih =>
    simp only [List.cons_append, getPosLoop, List.append_eq]
    rw [ih]
    have hlen : i + 1 + rest.length = i + (rest.length + 1) := by omega
    simp [List.length_cons, hlen]

theorem subContrib_digit (a b k : ℕ) :
    subContrib k ((Int.repr (subNumAt (a : ℚ) (b : ℚ) k)).data)
      = (some (subIv k * (((a * 3 ^ k / 300) % 3 : ℕ) : ℚ)),
         some (subIv k * (((b * 3 ^ k / 300) % 3 : ℕ) : ℚ))) := by
  have hr : (b * 3 ^ k / 300) % 3 < 3 := Nat.mod_lt _ (by norm_num)
  have hc : (a * 3 ^ k / 300) % 3 < 3 := Nat.mod_lt _ (by norm_num)
  rw [subNumAt_natCast]
  obtain ⟨h1, h9⟩ := digitN_range _ _ hr hc
  obtain ⟨hne, hdig, hval, _, _⟩ := digit_repr_facts _ (by omega) h1
  rw [subContrib, jsNum_of_digits _ hne hdig, hval]
  simp only [Option.map_some']
  rw [decode_digit_col _ _ hr hc, decode_digit_row _ _ hr hc]
  rw [subIv]

/-- The decoder loop over the encoded digit parts accumulates `colSum`. -/
theorem getPosLoop_kpDigits (a b : ℕ) (L G : ℚ) (n : ℕ) :
    getPosLoop (some L) (some G) 1 (kpDigits (a : ℚ) (b : ℚ) n)
      = (some (L + colSum a n), some (G + colSum b n)) := by
  induction n with
  | zero => simp [kpDigits, getPosLoop, colSum]
  | succ n ih =>
    rw [kpDigits_succ, getPosLoop_append, ih]
    have hlen : (1 : ℕ) + (kpDigits (a : ℚ) (b : ℚ) n).length = n + 1 := by
      simp [kpDigits]
      omega
    rw [hlen]
    show getPosLoop _ _ (n + 1) [_] = _
    rw [getPosLoop, subContrib_digit a b (n + 1), getPosLoop]
    simp only [Option.map₂, Option.some_bind, Option.map_some', Prod.mk.injEq,
      Option.some_inj]
    rw [colSum, colSum]
    constructor <;> ring

/-- Decoding the canonical parts of an encoded keypad string yields the
center of the deepest encoded cell, on each axis independently
(`lat` from the encoder's `x`, `lng` from the encoder's `y`). -/
theorem getPosParts_encoded (a b : ℕ) (ha : a < 7800) (hb : b < 7800) (n : ℕ) :
    getPosParts (kpMac (a : ℚ) (b : ℚ) :: kpDigits (a : ℚ) (b : ℚ) n)
      = (some (subIv n * ((a * 3 ^ n / 300 : ℕ) : ℚ) + subIv n / 2),
         some (subIv n * ((b * 3 ^ n / 300 : ℕ) : ℚ) + subIv n / 2)) := by
  have hia : a / 300 < 26 := by omega
  have hnb : b / 300 + 1 < 27 := by omega
  obtain ⟨hfix, htoNat, hdash, hge⟩ := letter_facts (a / 300) hia
  obtain ⟨hne, hdig, hval, _, _⟩ := pad_repr_facts (b / 300 + 1) hnb
  rw [kpMac_natCast a b ha, getPosParts, if_neg (by rw [htoNat]; omega)]
  rw [jsNum_of_digits _ hne hdig, hval]
  simp only [Option.map_some']
  rw [htoNat]
  have hL : 300 * (((65 + a / 300 : ℕ) : ℚ) - 65) = 300 * ((a / 300 : ℕ) : ℚ) := by
    push_cast
    ring
  have hG : 300 * (((b / 300 + 1 : ℕ) : ℚ) - 1) = 300 * ((b / 300 : ℕ) : ℚ) := by
    push_cast
    ring
  rw [hL, hG, getPosLoop_kpDigits]
  rw [withCenter]
  have hlen : (kpDigits (a : ℚ) (b : ℚ) n).length + 1 - 1 = n := by
    simp [kpDigits]
  rw [hlen]
  simp only [Option.map_some', Prod.mk.injEq, Option.some_inj]
  rw [← subIv]
  constructor
  · rw [← colSum_eq a n]
  · rw [← colSum_eq b n]

/-! ### Lemmas: the encoder's output for each precision branch -/

theorem kpDigits_canonical (a b : ℕ) (n : ℕ) :
    ∀ s ∈ kpDigits (a : ℚ) (b : ℚ) n, ∃ c, s = [c] ∧ toUpperChar c = c ∧ c ≠ '-' := by
  intro s hs
  rw [kpDigits] at hs
  simp only [List.mem_map, List.mem_range] at hs
  obtain ⟨j, hj, rfl⟩ := hs
  have hr : (b * 3 ^ (j + 1) / 300) % 3 < 3 := Nat.mod_lt _ (by norm_num)
  have hcc : (a * 3 ^ (j + 1) / 300) % 3 < 3 := Nat.mod_lt _ (by norm_num)
  rw [subNumAt_natCast]
  obtain ⟨h1, h9⟩ := digitN_range _ _ hr hcc
  obtain ⟨_, _, _, hlen, hgood⟩ := digit_repr_facts _ (by omega) h1
  obtain ⟨c, hc⟩ := List.length_eq_one.mp hlen
  exact ⟨c, hc, (hgood c (by simp [hc])).1, (hgood c (by simp [hc])).2⟩

theorem kpMac_canonical (a b : ℕ) (ha : a < 7800) (hb : b < 7800) :
    (kpMac (a : ℚ) (b : ℚ)).length = 3
    ∧ ∀ c ∈ kpMac (a : ℚ) (b : ℚ), toUpperChar c = c ∧ c ≠ '-' := by
  have hia : a / 300 < 26 := by omega
  have hnb : b / 300 + 1 < 27 := by omega
  obtain ⟨hfix, _, hdash, _⟩ := letter_facts _ hia
  obtain ⟨_, _, _, hplen, hpgood⟩ := pad_repr_facts _ hnb
  rw [kpMac_natCast a b ha]
  refine ⟨by rw [List.length_cons, hplen], ?_⟩
  intro c hc
  rcases List.mem_cons.mp hc with rfl | hc
  · exact ⟨hfix, hdash⟩
  · exact hpgood c hc

/-- Decoding the canonical encoded string of `(x, y) = (a, b)` with `n`
sub-digits: each axis comes back at the center of its deepest cell, the
first (`lat`) axis carrying the encoder's `x` and the second (`lng`) its `y`. -/
theorem getPos_kpString (a b n : ℕ) (ha : a < 7800) (hb : b < 7800) :
    getPos (kpString (a : ℚ) (b : ℚ) n)
      = some (some (subIv n * ((a * 3 ^ n / 300 : ℕ) : ℚ) + subIv n / 2),
              some (subIv n * ((b * 3 ^ n / 300 : ℕ) : ℚ) + subIv n / 2)) := by
  obtain ⟨hlen, hgood⟩ := kpMac_canonical a b ha hb
  rw [kpString, getPos_canonical _ _ hlen hgood (kpDigits_canonical a b n),
    getPosParts_encoded a b ha hb n]

theorem kpString_zero (x y : ℚ) : kpString x y 0 = kpMac x y := by
  simp [kpString, kpDigits, joinDash]

theorem kpString_one (x y : ℚ) :
    kpString x y 1 = kpMac x y ++ dashNum (subNumAt x y 1) := by
  simp [kpString, kpDigits, joinDash, dashNum, List.range_succ]

theorem kpString_two (x y : ℚ) :
    kpString x y 2 = kpMac x y ++ dashNum (subNumAt x y 1) ++ dashNum (subNumAt x y 2) := by
  simp [kpString, kpDigits, joinDash, dashNum, List.range_succ]

theorem kpString_three (x y : ℚ) :
    kpString x y 3 = kpMac x y ++ dashNum (subNumAt x y 1) ++ dashNum (subNumAt x y 2)
      ++ dashNum (subNumAt x y 3) := by
  simp [kpString, kpDigits, joinDash, dashNum, List.range_succ]

theorem kpString_four (x y : ℚ) :
    kpString x y 4 = kpMac x y ++ dashNum (subNumAt x y 1) ++ dashNum (subNumAt x y 2)
      ++ dashNum (subNumAt x y 3) ++ dashNum (subNumAt x y 4) := by
  simp [kpString, kpDigits, joinDash, dashNum, List.range_succ]

/-- The encoder with a truthy explicit precision, sorted by branch. -/
theorem getKP_eq_branch (lat lng : ℚ) (h0 : ¬ (lng < 0 ∨ lat < 0)) (q z : ℚ)
    (hq : ¬ q = 0) :
    getKP lat lng (some q) z =
      if q = 1 ∨ q = 2 then kpString lng lat 0
      else if q = 3 then kpString lng lat 1
      else if q = 4 then kpString lng lat 2
      else if q = 5 then kpString lng lat 3
      else kpString lng lat 4 := by
  rw [getKP, if_neg h0]
  show (if (if q = 0 then z else q) = 0 ∨ (if q = 0 then z else q) = 1
          ∨ (if q = 0 then z else q) = 2 then _ else _) = _
  rw [if_neg hq]
  by_cases h12 : q = 1 ∨ q = 2
  · rw [if_pos (Or.inr h12), if_pos h12, kpString_zero]
  · rw [if_neg (by tauto), if_neg h12]
    by_cases h3 : q = 3
    · rw [if_pos h3, if_pos h3, kpString_one]
    · rw [if_neg h3, if_neg h3]
      by_cases h4 : q = 4
      · rw [if_pos h4, if_pos h4, kpString_two]
      · rw [if_neg h4, if_neg h4]
        by_cases h5 : q = 5
        · rw [if_pos h5, if_pos h5, kpString_three]
        · rw [if_neg h5, if_neg h5, kpString_four]

/-- The encoder with a falsy precision (absent or explicitly `0`) reads the
ambient zoom, but always produces a canonical string of at most 4 sub-digits. -/
theorem getKP_falsy (lat lng : ℚ) (h0 : ¬ (lng < 0 ∨ lat < 0)) (prec : Option ℚ)
    (hp : prec = none ∨ prec = some 0) (z : ℚ) :
    ∃ n, n ≤ 4 ∧ getKP lat lng prec z = kpString lng lat n := by
  have hbody : ∀ u : ℚ,
      (if u = 0 ∨ u = 1 ∨ u = 2 then kpMac lng lat
       else if u = 3 then kpMac lng lat ++ dashNum (subNumAt lng lat 1)
       else if u = 4 then
         kpMac lng lat ++ dashNum (subNumAt lng lat 1) ++ dashNum (subNumAt lng lat 2)
       else if u = 5 then
         kpMac lng lat ++ dashNum (subNumAt lng lat 1) ++ dashNum (subNumAt lng lat 2)
           ++ dashNum (subNumAt lng lat 3)
       else
         kpMac lng lat ++ dashNum (subNumAt lng lat 1) ++ dashNum (subNumAt lng lat 2)
           ++ dashNum (subNumAt lng lat 3) ++ dashNum (subNumAt lng lat 4))
      = kpString lng lat (if u = 0 ∨ u = 1 ∨ u = 2 then 0
          else if u = 3 then 1 else if u = 4 then 2 else if u = 5 then 3 else 4) := by
    intro u
    by_cases h1 : u = 0 ∨ u = 1 ∨ u = 2
    · simp only [if_pos h1, kpString_zero]
    · simp only [if_neg h1]
      by_cases h3 : u = 3
      · simp only [if_pos h3, kpString_one]
      · simp only [if_neg h3]
        by_cases h4 : u = 4
        · simp only [if_pos h4, kpString_two]
        · simp only [if_neg h4]
          by_cases h5 : u = 5
          · simp only [if_pos h5, kpString_three]
          · simp only [if_neg h5, kpString_four]
  rcases hp with rfl | rfl
  · refine ⟨if z = 0 ∨ z = 1 ∨ z = 2 then 0
        else if z = 3 then 1 else if z = 4 then 2 else if z = 5 then 3 else 4,
      by split_ifs <;> omega, ?_⟩
    rw [getKP, if_neg h0]
    exact hbody z
  · refine ⟨if z = 0 ∨ z = 1 ∨ z = 2 then 0
        else if z = 3 then 1 else if z = 4 then 2 else if z = 5 then 3 else 4,
      by split_ifs <;> omega, ?_⟩
    rw [getKP, if_neg h0]
    show (if (if (0 : ℚ) = 0 then z else 0) = 0 ∨ _ ∨ _ then _ else _) = _
    rw [if_pos rfl]
    exact hbody z

theorem decode_err (a n : ℕ) :
    |subIv n * ((a * 3 ^ n / 300 : ℕ) : ℚ) + subIv n / 2 - (a : ℚ)| ≤ subIv n / 2 := by
  obtain ⟨h1, h2⟩ := D_bounds a n
  rw [abs_le]
  constructor <;> linarith

/-! ### Claim C1 -/

theorem kp_decode_bound (a b n : ℕ) (ha : a < 7800) (hb : b < 7800) (w : ℚ)
    (hw : subIv n / 2 < w) :
    ∃ plat plng : ℚ,
      getPos (kpString (a : ℚ) (b : ℚ) n) = some (some plat, some plng)
      ∧ |plat - (a : ℚ)| < w ∧ |plng - (b : ℚ)| < w
      ∧ plat = subIv n * ((a * 3 ^ n / 300 : ℕ) : ℚ) + subIv n / 2
      ∧ plng = subIv n * ((b * 3 ^ n / 300 : ℕ) : ℚ) + subIv n / 2 := by
  refine ⟨_, _, getPos_kpString a b n ha hb, ?_, ?_, rfl, rfl⟩
  · exact lt_of_le_of_lt (decode_err a n) hw
  · exact lt_of_le_of_lt (decode_err b n) hw

/-- C1, counterexample: the round trip `getPos ∘ getKP` transposes the axes.
For `p = {lat: 0, lng: 300}` at depth 1 the decoded point is
`{lat: 450, lng: 150}`, whose `lat` is 450 away from `p.lat` — more than one
macro-cell width (300) — so the decoded point is not within one cell-width of
`p`. -/
theorem C1_roundtrip_counterexample :
    getPos (getKP 0 300 (some 1) 0) = some (some 450, some 150)
    ∧ cellWidth 1 = 300
    ∧ ¬ |(450 : ℚ) - 0| < 300 := by
  have h0 : ¬ ((300 : ℚ) < 0 ∨ (0 : ℚ) < 0) := by norm_num
  have h1 := getKP_eq_branch 0 300 h0 1 0 (by norm_num)
  rw [if_pos (Or.inl rfl)] at h1
  have h2 := getPos_kpString 300 0 0 (by norm_num) (by norm_num)
  have hc3 : ((300 : ℕ) : ℚ) = (300 : ℚ) := by norm_num
  have hc0 : ((0 : ℕ) : ℚ) = (0 : ℚ) := by norm_num
  rw [hc3, hc0] at h2
  refine ⟨?_, by norm_num [cellWidth], by norm_num⟩
  rw [h1, h2]
  norm_num [subIv_zero]

/-- C1, amended: the round trip holds up to the encoder/decoder axis
transposition.  For natural coordinates below the 26-letter extent and any
depth `d ≤ 6` (depth 0 being falsy and deferring to the ambient zoom), the
decoded point's `lat` is within one depth-`d` cell-width of the encoder's
`lng` argument and its `lng` within one cell-width of the encoder's `lat`
argument; for explicit depths `d ≥ 1` each decoded axis is exactly the
center of the deepest encoded cell. -/
theorem C1_roundtrip_transposed (a b d : ℕ) (z : ℚ)
    (ha : a < 7800) (hb : b < 7800) (hd : d ≤ 6) :
    ∃ plat plng : ℚ,
      getPos (getKP (b : ℚ) (a : ℚ) (some (d : ℚ)) z) = some (some plat, some plng)
      ∧ |plat - (a : ℚ)| < cellWidth d ∧ |plng - (b : ℚ)| < cellWidth d
      ∧ (1 ≤ d →
          plat = subIv (nsubs d) * ((a * 3 ^ nsubs d / 300 : ℕ) : ℚ) + subIv (nsubs d) / 2
          ∧ plng = subIv (nsubs d) * ((b * 3 ^ nsubs d / 300 : ℕ) : ℚ) + subIv (nsubs d) / 2) := by
  have h0 : ¬ ((a : ℚ) < 0 ∨ (b : ℚ) < 0) := by
    push_neg
    exact ⟨Nat.cast_nonneg a, Nat.cast_nonneg b⟩
  interval_cases d
  · -- depth 0 is falsy: the emitted depth is the ambient zoom's branch
    obtain ⟨n, hn4, heq⟩ :=
      getKP_falsy (b : ℚ) (a : ℚ) h0 (some ((0 : ℕ) : ℚ)) (Or.inr (by simp)) z
    obtain ⟨plat, plng, h2, h3, h4, _, _⟩ :=
      kp_decode_bound a b n ha hb 300 (by have := subIv_le_300 n; linarith)
    have hcw : cellWidth 0 = 300 := by norm_num [cellWidth]
    exact ⟨plat, plng, by rw [heq]; exact h2, by rw [hcw]; exact h3,
      by rw [hcw]; exact h4, by omega⟩
  · obtain ⟨plat, plng, h2, h3, h4, h5, h6⟩ :=
      kp_decode_bound a b 0 ha hb (cellWidth 1) (by norm_num [subIv, cellWidth])
    refine ⟨plat, plng, ?_, h3, h4, fun _ => ⟨h5, h6⟩⟩
    rw [show ((1 : ℕ) : ℚ) = (1 : ℚ) by norm_num]
    rw [getKP_eq_branch (b : ℚ) (a : ℚ) h0 1 z (by norm_num), if_pos (Or.inl rfl)]
    exact h2
  · obtain ⟨plat, plng, h2, h3, h4, h5, h6⟩ :=
      kp_decode_bound a b 0 ha hb (cellWidth 2) (by norm_num [subIv, cellWidth])
    refine ⟨plat, plng, ?_, h3, h4, fun _ => ⟨h5, h6⟩⟩
    rw [show ((2 : ℕ) : ℚ) = (2 : ℚ) by norm_num]
    rw [getKP_eq_branch (b : ℚ) (a : ℚ) h0 2 z (by norm_num), if_pos (Or.inr rfl)]
    exact h2
  · obtain ⟨plat, plng, h2, h3, h4, h5, h6⟩ :=
      kp_decode_bound a b 1 ha hb (cellWidth 3) (by norm_num [subIv, cellWidth])
    refine ⟨plat, plng, ?_, h3, h4, fun _ => ⟨h5, h6⟩⟩
    rw [show ((3 : ℕ) : ℚ) = (3 : ℚ) by norm_num]
    rw [getKP_eq_branch (b : ℚ) (a : ℚ) h0 3 z (by norm_num),
      if_neg (by norm_num), if_pos rfl]
    exact h2
  · obtain ⟨plat, plng, h2, h3, h4, h5, h6⟩ :=
      kp_decode_bound a b 2 ha hb (cellWidth 4) (by norm_num [subIv, cellWidth])
    refine ⟨plat, plng, ?_, h3, h4, fun _ => ⟨h5, h6⟩⟩
    rw [show ((4 : ℕ) : ℚ) = (4 : ℚ) by norm_num]
    rw [getKP_eq_branch (b : ℚ) (a : ℚ) h0 4 z (by norm_num),
      if_neg (by norm_num), if_neg (by norm_num), if_pos rfl]
    exact h2
  · obtain ⟨plat, plng, h2, h3, h4, h5, h6⟩ :=
      kp_decode_bound a b 3 ha hb (cellWidth 5) (by norm_num [subIv, cellWidth])
    refine ⟨plat, plng, ?_, h3, h4, fun _ => ⟨h5, h6⟩⟩
    rw [show ((5 : ℕ) : ℚ) = (5 : ℚ) by norm_num]
    rw [getKP_eq_branch (b : ℚ) (a : ℚ) h0 5 z (by norm_num),
      if_neg (by norm_num), if_neg (by norm_num), if_neg (by norm_num), if_pos rfl]
    exact h2
  · obtain ⟨plat, plng, h2, h3, h4, h5, h6⟩ :=
      kp_decode_bound a b 4 ha hb (cellWidth 6) (by norm_num [subIv, cellWidth])
    refine ⟨plat, plng, ?_, h3, h4, fun _ => ⟨h5, h6⟩⟩
    rw [show ((6 : ℕ) : ℚ) = (6 : ℚ) by norm_num]
    rw [getKP_eq_branch (b : ℚ) (a : ℚ) h0 6 z (by norm_num),
      if_neg (by norm_num), if_neg (by norm_num), if_neg (by norm_num),
      if_neg (by norm_num)]
    exact h2

/-- C1 witness: the amended round trip at the concrete point
`(x, y) = (137, 4321)` and depth 6. -/
theorem C1_roundtrip_transposed_witness :
    137 < 7800 ∧ 4321 < 7800 ∧ 6 ≤ 6 ∧
    (∃ plat plng : ℚ,
      getPos (getKP ((4321 : ℕ) : ℚ) ((137 : ℕ) : ℚ) (some ((6 : ℕ) : ℚ)) 0)
          = some (some plat, some plng)
      ∧ |plat - ((137 : ℕ) : ℚ)| < cellWidth 6 ∧ |plng - ((4321 : ℕ) : ℚ)| < cellWidth 6
      ∧ (1 ≤ 6 →
          plat = subIv (nsubs 6) * ((137 * 3 ^ nsubs 6 / 300 : ℕ) : ℚ) + subIv (nsubs 6) / 2
          ∧ plng = subIv (nsubs 6) * ((4321 * 3 ^ nsubs 6 / 300 : ℕ) : ℚ) + subIv (nsubs 6) / 2)) :=
  ⟨by decide, by decide, by decide,
    C1_roundtrip_transposed 137 4321 6 0 (by decide) (by decide) (by decide)⟩

/-! ### Claims C4, C6, C7, C8: encoder and codec facts -/

theorem kpMac_00 : kpMac (0 : ℚ) (0 : ℚ) = ['A', '0', '1'] := by
  have h := kpMac_natCast 0 0 (by norm_num)
  rw [show ((0 : ℕ) : ℚ) = (0 : ℚ) by norm_num] at h
  rw [h]
  decide

theorem subNumAt_00 (k : ℕ) : subNumAt (0 : ℚ) (0 : ℚ) k = 7 := by
  have h := subNumAt_natCast 0 0 k
  rw [show ((0 : ℕ) : ℚ) = (0 : ℚ) by norm_num] at h
  rw [h]
  norm_num [digitN]

theorem getKP_00_precision5 (z : ℚ) : getKP 0 0 (some 5) z = "A01-7-7-7".data := by
  have h0 : ¬ ((0 : ℚ) < 0 ∨ (0 : ℚ) < 0) := by norm_num
  rw [getKP_eq_branch 0 0 h0 5 z (by norm_num),
    if_neg (by norm_num), if_neg (by norm_num), if_neg (by norm_num), if_pos rfl,
    kpString_three, kpMac_00]
  simp only [subNumAt_00]
  decide

/-- C4, counterexample: encoding the top-left corner at precision 5 does NOT
yield `"A01-7-7-7-7"` — the precision-5 branch emits only three sub-digits. -/
theorem C4_counterexample : ¬ getKP 0 0 (some 5) 0 = "A01-7-7-7-7".data := by
  rw [getKP_00_precision5 0]
  decide

/-- C4, amended: `getKP(0, 0, 5)` returns the macro cell `"A01"` followed by
three sub-digits, each `7`: `"A01-7-7-7"`, for any ambient zoom. -/
theorem C4_top_left_precision5 (z : ℚ) :
    getKP 0 0 (some 5) z = "A01-7-7-7".data :=
  getKP_00_precision5 z

/-- C6, counterexample: `getPos` on the empty string does not return a value:
`formatKeyPad` yields `undefined` and `.split` on it throws a `TypeError`
(the outer `none` of the embedding), as the source's own doc comment states
("Throws error if keypad string is too short"). -/
theorem C6_counterexample : getPos ("".data) = none := rfl

/-- C6, amended: `formatKeyPad("")` returns `undefined` (`none`), and
`getPos("")` then throws a `TypeError` instead of returning. -/
theorem C6_empty_input :
    formatKeyPad ("".data) = none ∧ getPos ("".data) = none :=
  ⟨rfl, rfl⟩

/-- C7: whenever the macro column index `⌊x/300⌋` is 26 or more, the keypad
string's first character is the letter at code point `65 + ⌊x/300⌋ + 6` —
the documented skip-6 continuation into lowercase — at every precision. -/
theorem C7_letter_wrap (y x : ℚ) (prec : Option ℚ) (z : ℚ)
    (hy : 0 ≤ y) (hx : 26 ≤ ⌊x / 300⌋) :
    (getKP y x prec z).head? = some (jsFromCharCode (65 + ⌊x / 300⌋ + 6)) := by
  have hx0 : (0 : ℚ) ≤ x := by
    have h26 : (26 : ℚ) ≤ x / 300 := by exact_mod_cast Int.le_floor.mp hx
    nlinarith
  have h0 : ¬ (x < 0 ∨ y < 0) := by push_neg; exact ⟨hx0, hy⟩
  have hsub : ⌊x / subIv 0⌋ = ⌊x / 300⌋ := by rw [subIv_zero]
  have hletter : kpLetterOf x = jsFromCharCode (65 + ⌊x / 300⌋ + 6) := by
    rw [kpLetterOf, hsub, if_pos (by omega)]
  have hhead : ∀ n : ℕ, (kpString x y n).head? = some (jsFromCharCode (65 + ⌊x / 300⌋ + 6)) := by
    intro n
    obtain ⟨r, hr⟩ := joinDash_head_append (kpMac x y) (kpDigits x y n)
    rw [kpString, hr, kpMac, List.cons_append, List.head?_cons, hletter]
  cases prec with
  | none =>
    obtain ⟨n, _, heq⟩ := getKP_falsy y x h0 none (Or.inl rfl) z
    rw [heq]
    exact hhead n
  | some q =>
    by_cases hq : q = 0
    · subst hq
      obtain ⟨n, _, heq⟩ := getKP_falsy y x h0 (some 0) (Or.inr rfl) z
      rw [heq]
      exact hhead n
    · rw [getKP_eq_branch y x h0 q z hq]
      split_ifs <;> apply hhead

/-- C7 witness: at `x = 7800` (macro index 26) the first character is `'a'`. -/
theorem C7_letter_wrap_witness :
    (0 : ℚ) ≤ 0 ∧ 26 ≤ ⌊(7800 : ℚ) / 300⌋
    ∧ (getKP 0 7800 (some 1) 0).head? = some 'a' := by
  have hfl : ⌊(7800 : ℚ) / 300⌋ = 26 := by
    rw [show (7800 : ℚ) / 300 = ((26 : ℤ) : ℚ) by norm_num, Int.floor_intCast]
  refine ⟨le_refl 0, by rw [hfl], ?_⟩
  have h := C7_letter_wrap 0 7800 (some 1) 0 (le_refl 0) (by rw [hfl])
  rw [hfl] at h
  rw [h]
  decide

/-- C8, counterexample: an explicitly passed precision of `0` is falsy in
JavaScript, so `getKP` falls back to the ambient zoom: at zoom 3 it emits a
sub-digit, and its output changes with the zoom — contradicting both the
macro-cell-only claim and independence from UI state for precision 0. -/
theorem C8_counterexample :
    getKP 0 0 (some 0) 3 = "A01-7".data
    ∧ getKP 0 0 (some 0) 0 = "A01".data
    ∧ ¬ "A01-7".data = "A01".data := by
  have h0 : ¬ ((0 : ℚ) < 0 ∨ (0 : ℚ) < 0) := by norm_num
  refine ⟨?_, ?_, by decide⟩
  · rw [getKP, if_neg h0]
    show (if (if (0 : ℚ) = 0 then 3 else 0) = 0 ∨ _ ∨ _ then _ else _) = _
    rw [if_pos rfl, if_neg (by norm_num), if_pos rfl, kpMac_00]
    simp only [subNumAt_00]
    decide
  · rw [getKP, if_neg h0]
    show (if (if (0 : ℚ) = 0 then 0 else 0) = 0 ∨ _ ∨ _ then _ else _) = _
    rw [if_pos rfl, if_pos (Or.inl rfl), kpMac_00]

/-- C8, amended: for an explicitly passed truthy precision of 1 or 2, `getKP`
returns only the macro cell (letter plus zero-padded two-digit number),
independently of the ambient zoom; precision 0 instead falls back to the
ambient zoom. -/
theorem C8_macro_for_truthy_precision (x y p z : ℚ) (hx : 0 ≤ x) (hy : 0 ≤ y)
    (hp : p = 1 ∨ p = 2) :
    getKP y x (some p) z = kpMac x y := by
  have h0 : ¬ (x < 0 ∨ y < 0) := by push_neg; exact ⟨hx, hy⟩
  have hq : ¬ p = 0 := by rcases hp with rfl | rfl <;> norm_num
  rw [getKP_eq_branch y x h0 p z hq, if_pos hp, kpString_zero]

/-- C8 witness: precision 1 at zoom 5 still yields only the macro cell. -/
theorem C8_macro_for_truthy_precision_witness :
    (0 : ℚ) ≤ 0 ∧ ((1 : ℚ) = 1 ∨ (1 : ℚ) = 2) ∧ getKP 0 0 (some 1) 5 = kpMac 0 0 :=
  ⟨le_refl 0, Or.inl rfl,
    C8_macro_for_truthy_precision 0 0 1 5 (le_refl 0) (le_refl 0) (Or.inl rfl)⟩

/-! ### Claim C5: axis-aligned bearings -/

/-- C5: from the origin, a point displaced +100 on the codebase's y axis
(`lat`; `getKP` sets `y = lat`) bears 90°, and one displaced +100 on the x
axis (`lng`) bears 180°; both values lie in `[0, 360)`. -/
theorem C5_axis_bearings :
    getBearing (some 0, some 0) (some 100, some 0) = some 90
    ∧ getBearing (some 0, some 0) (some 0, some 100) = some 180
    ∧ (0 : ℝ) ≤ 90 ∧ (90 : ℝ) < 360 ∧ (0 : ℝ) ≤ 180 ∧ (180 : ℝ) < 360 := by
  refine ⟨?_, ?_, by norm_num, by norm_num, by norm_num, by norm_num⟩
  · have hat : jsAtan2 ((0 : ℝ) - 0) (100 - 0) = 0 := by
      rw [jsAtan2, if_pos (by norm_num : (0 : ℝ) < 100 - 0)]
      norm_num [Real.arctan_zero]
    simp only [getBearing, Option.map₂, Option.some_bind, Option.map_some',
      Option.some_inj]
    rw [hat]
    norm_num
  · have hat : jsAtan2 ((100 : ℝ) - 0) (0 - 0) = Real.pi / 2 := by
      rw [jsAtan2, if_neg (by norm_num), if_neg (by norm_num),
        if_pos (by norm_num : (0 : ℝ) < 100 - 0)]
    simp only [getBearing, Option.map₂, Option.some_bind, Option.map_some',
      Option.some_inj]
    rw [hat]
    have hval : Real.pi / 2 * 180 / Real.pi + 90 = 180 := by
      field_simp
      ring
    rw [hval]
    norm_num

/-! ### Claim C2: elevation solver and the ballistic discriminant -/

/-- C2: for positive distance and positive effective gravity, `getElevation`
is `NaN` (`none`) exactly when the discriminant
`vel⁴ − g·(g·dist² + 2·vDelta·vel²)` is negative; otherwise it returns the
arctangent-derived angle, finite with `|θ| < π/2`.  Totality of the
embedding reflects that the function never throws. -/
theorem C2_elevation_nan_iff_neg_disc (env : Env) (d vD v : ℝ)
    (hd : 0 < d) (hg : 0 < env.gravity * env.activeWeapon.gravityScale) :
    (getElevation env (some d) (some vD) (some v) = none
      ↔ v ^ 4 - env.gravity * env.activeWeapon.gravityScale
          * (env.gravity * env.activeWeapon.gravityScale * d ^ 2 + 2 * vD * v ^ 2) < 0)
    ∧ ∀ θ : ℝ, getElevation env (some d) (some vD) (some v) = some θ →
        θ = Real.arctan ((v ^ 2
              - Real.sqrt (v ^ 4 - env.gravity * env.activeWeapon.gravityScale
                  * (env.gravity * env.activeWeapon.gravityScale * d ^ 2 + 2 * vD * v ^ 2))
                * env.activeWeapon.angleType)
            / (env.gravity * env.activeWeapon.gravityScale * d))
          ∧ |θ| < Real.pi / 2 := by
  constructor
  · simp only [getElevation, jsSqrt]
    split_ifs with h
    · simp [h]
    · simp [h]
  · intro θ hθ
    simp only [getElevation, jsSqrt] at hθ
    split_ifs at hθ with h
    · simp at hθ
    · simp only [Option.map_some', Option.some_inj] at hθ
      refine ⟨hθ.symm, ?_⟩
      rw [← hθ, abs_lt]
      exact ⟨Real.neg_pi_div_two_lt_arctan _, Real.arctan_lt_pi_div_two _⟩

/-! ### Concrete environments for the witnesses -/

/-- A concrete canvas sampler whose red channel is never 0. -/
def sampler0 : ℤ → ℤ → RGBA := fun x y => ⟨(x + y).toNat % 250 + 1, 0, 7, 255⟩

/-- A concrete height environment whose active map is the one at index 0. -/
def heightEnv0 : HeightEnv := ⟨some 0, [⟨100, 0, 0, 1⟩], 200, sampler0⟩

/-- A concrete mil-unit weapon. -/
def weapon0 : Weapon := ⟨1, 1, 0, "mil".data, 0, "m".data, fun _ => none⟩

/-- A concrete ambient configuration. -/
def env0 : Env := ⟨heightEnv0, 1, weapon0⟩

/-- A second, different ambient configuration (different gravity). -/
def env1 : Env := ⟨heightEnv0, 2, weapon0⟩

/-- C2 witness: at `d = 1`, `vDelta = 0`, `vel = 1` under `env0`. -/
theorem C2_elevation_nan_iff_neg_disc_witness :
    (0 : ℝ) < 1 ∧ 0 < env0.gravity * env0.activeWeapon.gravityScale
    ∧ ((getElevation env0 (some 1) (some 0) (some 1) = none
      ↔ (1 : ℝ) ^ 4 - env0.gravity * env0.activeWeapon.gravityScale
          * (env0.gravity * env0.activeWeapon.gravityScale * (1 : ℝ) ^ 2
            + 2 * 0 * (1 : ℝ) ^ 2) < 0)
    ∧ ∀ θ : ℝ, getElevation env0 (some 1) (some 0) (some 1) = some θ →
        θ = Real.arctan (((1 : ℝ) ^ 2
              - Real.sqrt ((1 : ℝ) ^ 4 - env0.gravity * env0.activeWeapon.gravityScale
                  * (env0.gravity * env0.activeWeapon.gravityScale * (1 : ℝ) ^ 2
                    + 2 * 0 * (1 : ℝ) ^ 2))
                * env0.activeWeapon.angleType)
            / (env0.gravity * env0.activeWeapon.gravityScale * 1))
          ∧ |θ| < Real.pi / 2) :=
  ⟨one_pos, by simp [env0, weapon0],
    C2_elevation_nan_iff_neg_disc env0 1 0 1 one_pos (by simp [env0, weapon0])⟩

/-! ### Claim C9: the two solvers compute the same elevation angle -/

/-- C9: for identical inputs and ambient configuration, the map-UI solver's
`elevationAngle` equals the classic solver's result — including both being
`NaN` (`none`) together. -/
theorem C9_map_ui_elevation_matches (env : Env) (dist vDelta vel : Option ℝ) :
    (getElevationWithEllipseParams env dist vDelta vel).elevationAngle
      = getElevation env dist vDelta vel := by
  cases dist <;> cases vDelta <;> cases vel <;> rfl

/-! ### Claim C10: flat terrain whenever the active map is falsy -/

/-- C10: `getHeight` returns exactly 0 — no heightmap sampling — whenever
`globalData.activeMap` is falsy, which includes the map at list index 0;
so with the first map selected every height delta is 0, for every sampler
and every pair of positions. -/
theorem C10_flat_when_activeMap_falsy (env : HeightEnv) (a b : Option ℚ × Option ℚ)
    (h : env.activeMap = none ∨ env.activeMap = some 0) :
    getHeight env a b = some (HeightResult.num 0) := by
  have hf : jsFalsy env.activeMap = true := by
    rcases h with h | h <;> rw [h] <;> rfl
  rw [getHeight, if_pos hf]

/-- C10 witness: index-0 active map with a nowhere-zero sampler still gives
height 0. -/
theorem C10_flat_when_activeMap_falsy_witness :
    (heightEnv0.activeMap = none ∨ heightEnv0.activeMap = some 0)
    ∧ getHeight heightEnv0 (some 1, some 2) (some 3, some 4)
        = some (HeightResult.num 0) :=
  ⟨Or.inr rfl,
    C10_flat_when_activeMap_falsy heightEnv0 (some 1, some 2) (some 3, some 4)
      (Or.inr rfl)⟩

/-! ### Claim C3: failure precedence of `shoot` -/

/-- C3: `shoot` applies its failure classifications in fixed precedence
order.  (1) If either keypad decodes to an invalid (`NaN`-`lng`) position,
it reports the invalid mortar, target or both, and the result is identical under
every ambient configuration — no height lookup, distance, bearing or
elevation computation can influence it.  (2) With valid positions, an
out-of-map height sentinel is reported next, independently of the weapon
configuration (only the height environment matters).  (3) Only with valid,
in-map positions is the elevation computed and converted, and the
out-of-range (`NaN`) and too-close rejections applied last, in that order. -/
theorem C3_shoot_precedence (env env2 : Env) (a b : List Char)
    (aPos bPos : Option ℚ × Option ℚ)
    (ha : 3 ≤ a.length) (hb : 3 ≤ b.length)
    (hA : getPos a = some aPos) (hB : getPos b = some bPos) :
    ((aPos.2 = none ∨ bPos.2 = none) →
        shoot env a b = shoot env2 a b
        ∧ shoot env a b
            = (if aPos.2 = none ∧ bPos.2 = none then some ShootResult.invalidBoth
               else if aPos.2 = none then some ShootResult.invalidMortar
               else some ShootResult.invalidTarget))
    ∧ (¬ aPos.2 = none → ¬ bPos.2 = none →
        (getHeight env.hEnv aPos bPos = some HeightResult.aerr →
            shoot env a b = some ShootResult.mortarOutOfMap
            ∧ (env2.hEnv = env.hEnv → shoot env2 a b = some ShootResult.mortarOutOfMap))
        ∧ (getHeight env.hEnv aPos bPos = some HeightResult.berr →
            shoot env a b = some ShootResult.targetOutOfMap
            ∧ (env2.hEnv = env.hEnv → shoot env2 a b = some ShootResult.targetOutOfMap))
        ∧ (∀ h : ℚ, getHeight env.hEnv aPos bPos = some (HeightResult.num h) →
            (convertedElevation env (getElevation env
                  (getDist (toRPoint aPos) (toRPoint bPos)) (some ((h : ℝ)))
                  (env.activeWeapon.getVelocity (getDist (toRPoint aPos) (toRPoint bPos))))
                = none →
              shoot env a b = some ShootResult.outOfRange)
            ∧ ∀ eV : ℝ, convertedElevation env (getElevation env
                  (getDist (toRPoint aPos) (toRPoint bPos)) (some ((h : ℝ)))
                  (env.activeWeapon.getVelocity (getDist (toRPoint aPos) (toRPoint bPos))))
                = some eV →
              (env.activeWeapon.minElevation1 < eV →
                  shoot env a b = some ShootResult.tooClose)
              ∧ (¬ env.activeWeapon.minElevation1 < eV →
                  shoot env a b = some (ShootResult.insertCalc
                    (getBearing (toRPoint aPos) (toRPoint bPos)) eV
                    (getDist (toRPoint aPos) (toRPoint bPos))
                    (env.activeWeapon.getVelocity (getDist (toRPoint aPos) (toRPoint bPos)))
                    h)))) := by
  have hg : ¬ (a.length < 3 ∨ b.length < 3) := by omega
  have hshoot : ∀ e : Env, shoot e a b =
      (if aPos.2 = none ∨ bPos.2 = none then
        (if aPos.2 = none ∧ bPos.2 = none then some ShootResult.invalidBoth
         else if aPos.2 = none then some ShootResult.invalidMortar
         else some ShootResult.invalidTarget)
      else
        match getHeight e.hEnv aPos bPos with
        | none => none
        | some HeightResult.aerr => some ShootResult.mortarOutOfMap
        | some HeightResult.berr => some ShootResult.targetOutOfMap
        | some (HeightResult.num height) =>
          match convertedElevation e (getElevation e
              (getDist (toRPoint aPos) (toRPoint bPos)) (some ((height : ℝ)))
              (e.activeWeapon.getVelocity (getDist (toRPoint aPos) (toRPoint bPos)))) with
          | none => some ShootResult.outOfRange
          | some eV =>
            if e.activeWeapon.minElevation1 < eV then some ShootResult.tooClose
            else some (ShootResult.insertCalc (getBearing (toRPoint aPos) (toRPoint bPos))
              eV (getDist (toRPoint aPos) (toRPoint bPos))
              (e.activeWeapon.getVelocity (getDist (toRPoint aPos) (toRPoint bPos)))
              height)) := by
    intro e
    rw [shoot.eq_def, hA, hB, if_neg hg]
  refine ⟨?_, ?_⟩
  · intro hinv
    constructor
    · rw [hshoot env, hshoot env2, if_pos hinv, if_pos hinv]
    · rw [hshoot env, if_pos hinv]
  · intro ha2 hb2
    have hni : ¬ (aPos.2 = none ∨ bPos.2 = none) := by tauto
    have htail : ∀ (e : Env) (hv : ℚ),
        getHeight e.hEnv aPos bPos = some (HeightResult.num hv) →
        shoot e a b =
          (match convertedElevation e (getElevation e
              (getDist (toRPoint aPos) (toRPoint bPos)) (some ((hv : ℝ)))
              (e.activeWeapon.getVelocity (getDist (toRPoint aPos) (toRPoint bPos)))) with
          | none => some ShootResult.outOfRange
          | some eV =>
            if e.activeWeapon.minElevation1 < eV then some ShootResult.tooClose
            else some (ShootResult.insertCalc (getBearing (toRPoint aPos) (toRPoint bPos))
              eV (getDist (toRPoint aPos) (toRPoint bPos))
              (e.activeWeapon.getVelocity (getDist (toRPoint aPos) (toRPoint bPos)))
              hv)) := by
      intro e hv hH
      rw [hshoot e, if_neg hni, hH]
    refine ⟨?_, ?_, ?_⟩
    · intro hH
      constructor
      · rw [hshoot env, if_neg hni, hH]
      · intro he
        rw [hshoot env2, if_neg hni, he, hH]
    · intro hH
      constructor
      · rw [hshoot env, if_neg hni, hH]
      · intro he
        rw [hshoot env2, if_neg hni, he, hH]
    · intro h hH
      constructor
      · intro hconv
        rw [htail env h hH, hconv]
      · intro eV hconv
        constructor
        · intro hlt
          rw [htail env h hH, hconv]
          exact if_pos hlt
        · intro hlt
          rw [htail env h hH, hconv]
          exact if_neg hlt

/-- C3 witness: a valid mortar keypad and a malformed target keypad report
the invalid target, identically under two different ambient configurations. -/
theorem C3_shoot_precedence_witness :
    3 ≤ ("A01".data).length ∧ 3 ≤ ("101".data).length
    ∧ getPos ("A01".data) = some (some 150, some 150)
    ∧ getPos ("101".data) = some (none, none)
    ∧ shoot env0 ("A01".data) ("101".data) = shoot env1 ("A01".data) ("101".data)
    ∧ shoot env0 ("A01".data) ("101".data) = some ShootResult.invalidTarget := by
  have hA : getPos ("A01".data) = some (some 150, some 150) := by
    have hs : kpString (0 : ℚ) (0 : ℚ) 0 = "A01".data := by
      rw [kpString_zero, kpMac_00]
    have h := getPos_kpString 0 0 0 (by norm_num) (by norm_num)
    rw [show ((0 : ℕ) : ℚ) = (0 : ℚ) by norm_num] at h
    rw [hs] at h
    rw [h]
    norm_num [subIv_zero]
  have hB : getPos ("101".data) = some (none, none) := by decide
  have h := (C3_shoot_precedence env0 env1 ("A01".data) ("101".data)
      (some 150, some 150) (none, none) (by decide) (by decide) hA hB).1
      (Or.inr rfl)
  refine ⟨by decide, by decide, hA, hB, h.1, ?_⟩
  rw [h.2]
  simp

end SquadCalc
